import Mathlib

/-!
Shallow embedding of the Solana Investment Advisor agent (src/agent.py) and
verification of its specification claims.

Numeric values are modelled as exact rationals (`ℚ`); Python float formatting
of display strings is not modelled, but every numeric payload that appears
inside a formatted string (stake amount, estimated annual return, resolved
portfolio value) is carried as a dedicated field of the corresponding record.
Fallible fetches are modelled as `Except String`/`Option` inputs describing
the outcome of the network call, since the network itself is outside the
program.
-/

namespace SolanaAgent

/-! ### Market data (src/agent.py, `get_market_data`, lines 599-628)

The fetch outcome is `none` when any HTTP call or JSON access raises
(the `except` branch), and `some (sol_price, prices)` when both calls
returned: `sol_price` is the parsed spot price and `prices` is the list of
price samples of the 7-day series (the second component of each
`[timestamp, price]` pair).  A zero first sample makes the Python division
raise `ZeroDivisionError`, which the same `except` branch catches, so that
case also produces the fallback result. -/

structure MarketData where
  sol_price_usd : ℚ
  price_change_7d : ℚ
  market_trend : String
deriving Repr, DecidableEq

def getMarketData (fetch : Option (ℚ × List ℚ)) : MarketData :=
  match fetch with
  | none => ⟨100, 0, "neutral"⟩
  | some (sol_price, prices) =>
    match prices with
    | old_price :: p2 :: rest =>
      if old_price = 0 then
        -- ZeroDivisionError, caught by the outer except: fallback result
        ⟨100, 0, "neutral"⟩
      else
        let price_change_7d :=
          (((p2 :: rest).getLast (List.cons_ne_nil p2 rest)) - old_price) / old_price * 100
        ⟨sol_price, price_change_7d,
          if price_change_7d > 0 then "bullish" else "bearish"⟩
    | _ =>
      -- fewer than 2 samples: price_change_7d = 0
      ⟨sol_price, 0, if (0 : ℚ) > 0 then "bullish" else "bearish"⟩

/-! ### Knowledge base (src/agent.py, `SolanaKnowledgeBase`, lines 37-101) -/

def stakingStrategySmall : String :=
  "Under $1000, stake 50-70% with Solana Foundation for stability"

def stakingStrategyMedium : String :=
  "$1000-$10000, diversify staking across validators"

def stakingStrategyLarge : String :=
  "Over $10000, use liquid staking and DeFi strategies"

/-- `SolanaKnowledgeBase.get_staking_recommendation` (lines 86-93). -/
def getStakingRecommendation (portfolio_value : ℚ) : String :=
  if portfolio_value < 1000 then stakingStrategySmall
  else if portfolio_value < 10000 then stakingStrategyMedium
  else stakingStrategyLarge

def marketStrategyBull : String :=
  "Focus on growth tokens, reduce stablecoin allocation"

def marketStrategyBear : String :=
  "Increase stablecoin allocation, focus on staking"

def marketStrategySideways : String :=
  "DCA strategies, yield farming, balanced allocation"

/-- `SolanaKnowledgeBase.get_market_strategy` (lines 99-101): a dict `.get`
keyed by "bull_market"/"bear_market"/"sideways", with the "sideways" entry as
the default on a miss. -/
def getMarketStrategy (market_trend : String) : String :=
  if market_trend = "bull_market" then marketStrategyBull
  else if market_trend = "bear_market" then marketStrategyBear
  else if market_trend = "sideways" then marketStrategySideways
  else marketStrategySideways

/-! ### Zerion portfolio data and its two resolutions of portfolio value -/

structure ZerionData where
  total_value_usd : ℚ
deriving Repr, DecidableEq

/-- Resolution of `portfolio_value_usd` in
`SolanaWalletAnalyzer.generate_recommendations` (lines 705-708): the Zerion
total when the fetch succeeded without error, else `sol_balance * sol_price`. -/
def resolvePortfolioValueUsd (zerion_data : Except String ZerionData)
    (sol_balance sol_price : ℚ) : ℚ :=
  match zerion_data with
  | .ok z => z.total_value_usd
  | .error _ => sol_balance * sol_price

/-- Resolution of `portfolio_value` in `KnowledgeProcessor.analyze_portfolio`
(lines 114-123): the Zerion total when the fetch succeeded without error,
else the initial value 0. -/
def analyzePortfolioValue (zerion_data : Except String ZerionData) : ℚ :=
  match zerion_data with
  | .ok z => z.total_value_usd
  | .error _ => 0

/-- The staking-by-size strategy string picked inside
`KnowledgeProcessor._get_investment_insights` (line 218), driven by the
portfolio value that `analyze_portfolio` resolved. -/
def analyzePortfolioStakingInsight (zerion_data : Except String ZerionData) : String :=
  getStakingRecommendation (analyzePortfolioValue zerion_data)

/-! ### Staking opportunities (src/agent.py, `get_staking_opportunities`) -/

/-- One entry of the staking-opportunity list: either a validator dict or the
`\x7b"error": msg\x7d` dict produced when the whole fetch raises. -/
inductive StakingOp where
  | validator (name : String) (apy : ℚ) (commission : ℚ)
  | errorEntry (msg : String)
deriving Repr, DecidableEq

/-- `op.get("apy", 0)`: the APY of a validator entry, 0 for an error entry. -/
def StakingOp.apyVal : StakingOp → ℚ
  | .validator _ apy _ => apy
  | .errorEntry _ => 0

/-- Python `"error" in op`: whether the dict has an "error" key. -/
def StakingOp.hasError : StakingOp → Bool
  | .validator _ _ _ => false
  | .errorEntry _ => true

/-- Python `max(staking_ops, key=lambda x: x.get("apy", 0))`: fold keeping the
first entry whose key is strictly greater than the current best. -/
def maxByApy (hd : StakingOp) (tl : List StakingOp) : StakingOp :=
  tl.foldl (fun acc x => if acc.apyVal < x.apyVal then x else acc) hd

/-- The maximum APY over a staking-opportunity list (0 for the empty list). -/
def maxApyOf : List StakingOp → ℚ
  | [] => 0
  | hd :: tl => tl.foldl (fun m op => max m op.apyVal) hd.apyVal

/-- The static fallback list returned when all staking sources fail
(lines 580-595). -/
def defaultStakingOps : List StakingOp :=
  [.validator "Solana Foundation" 7.2 0,
   .validator "Marinade Finance" 6.8 2]

/-! ### Wallet data (src/agent.py, `get_wallet_balance`, lines 291-359)

Token accounts are opaque JSON payloads as far as the claims verified here
are concerned; `generate_recommendations` only takes their count. -/

structure WalletData where
  sol_balance : ℚ
  token_accounts : List String
  source : String
deriving Repr, DecidableEq

/-- Outcome of the two dependent RPC calls against one endpoint: the balance
call failed (exception or error field), the token-accounts call failed, or
both succeeded with the given lamports value and token-account list. -/
inductive EndpointOutcome where
  | balanceError
  | tokenError
  | ok (lamports : ℚ) (token_accounts : List String)
deriving Repr, DecidableEq

def EndpointOutcome.isOk : EndpointOutcome → Bool
  | .ok _ _ => true
  | _ => false

/-- The loop over `self.rpc_urls` (lines 296-340): return on the first
endpoint where both calls succeed, otherwise continue. -/
def fetchLoop : List (String × EndpointOutcome) → Option WalletData
  | [] => none
  | (rpc_url, outcome) :: rest =>
    match outcome with
    | .ok lamports accounts => some ⟨lamports / 1000000000, accounts, rpc_url⟩
    | _ => fetchLoop rest

/-- `get_wallet_balance`: the RPC loop, then the Solscan fallback
(`solscanLamports = none` models a non-200 response or exception), then the
final error result. -/
def getWalletBalance (endpoints : List (String × EndpointOutcome))
    (solscanLamports : Option ℚ) : Except String WalletData :=
  match fetchLoop endpoints with
  | some w => .ok w
  | none =>
    match solscanLamports with
    | some lamports => .ok ⟨lamports / 1000000000, [], "solscan"⟩
    | none => .error "All RPC endpoints and fallback APIs failed"

/-- The endpoints the loop actually issues requests against: every endpoint
up to and including the first fully-successful one. -/
def calledEndpoints : List (String × EndpointOutcome) → List String
  | [] => []
  | (rpc_url, outcome) :: rest =>
    match outcome with
    | .ok _ _ => [rpc_url]
    | _ => rpc_url :: calledEndpoints rest

/-! ### Knowledge recommendations (src/agent.py, lines 630-670) -/

/-- One dict produced by `_generate_knowledge_recommendations`; only the
fields read back by `get_knowledge_recommendations` are modelled. -/
structure KnowledgeRec where
  action : String
  description : String
deriving Repr, DecidableEq

/-- `get_knowledge_recommendations` (success path, lines 632-670): up to 3
insights and up to 3 knowledge recommendations as strings, a basic fallback
when both are empty, capped at 5 entries. -/
def getKnowledgeRecommendations (insights : List String)
    (knowledge_recommendations : List KnowledgeRec)
    (sol_balance : ℚ) (token_count : ℕ) : List String :=
  let recs := (insights.take 3).map (fun insight => "🧠 Knowledge Insight: " ++ insight)
      ++ (knowledge_recommendations.take 3).map
          (fun rec => "🎯 " ++ rec.action ++ ": " ++ rec.description)
  let recs :=
    if recs.isEmpty then
      (if sol_balance > 0 then
        ["Consider staking your SOL for 6-8% APY using knowledge base insights."]
       else [])
      ++ (if token_count < 3 then
        ["Diversify your portfolio with more tokens based on risk analysis."]
       else [])
      ++ ["Use knowledge base for advanced DeFi strategy optimization."]
    else recs
  recs.take 5

/-! ### Recommendation engine (src/agent.py, `generate_recommendations`,
lines 678-759) -/

/-- One recommendation dict.  `stakeAmount`, `estimatedAnnualReturn` and
`portfolioValueUsd` carry the numeric payloads of the formatted `action`,
`estimated_annual_return` and `reasoning` strings of a staking
recommendation; `message` is the field of an error recommendation. -/
structure Recommendation where
  rtype : String
  priority : String := "medium"
  action : String := ""
  description : String := ""
  reasoning : String := ""
  stakeAmount : Option ℚ := none
  estimatedAnnualReturn : Option ℚ := none
  portfolioValueUsd : Option ℚ := none
  message : Option String := none
deriving Repr, DecidableEq

/-- The staking block (lines 710-735): emitted only when
`sol_balance > 0.1` and the staking-opportunity list is non-empty with no
error entries; stake fraction and priority by balance tier, estimated annual
return from the highest-APY entry. -/
def stakingRecOf (sol_balance portfolio_value_usd : ℚ)
    (staking_ops : List StakingOp) : List Recommendation :=
  if sol_balance > 0.1 then
    match staking_ops with
    | [] => []
    | hd :: tl =>
      if (hd :: tl).any (fun op => op.hasError) then []
      else
        let best := maxByApy hd tl
        let sa_p : ℚ × String :=
          if sol_balance < 1 then (sol_balance * 0.5, "medium")
          else if sol_balance < 5 then (sol_balance * 0.7, "high")
          else (sol_balance * 0.6, "high")
        let stake_amount := sa_p.1
        let estimated_return := stake_amount * best.apyVal / 100
        [{ rtype := "staking", priority := sa_p.2,
           action := "Stake SOL",
           description := "Stake with the best validator",
           reasoning := "Optimal staking strategy for your portfolio size",
           stakeAmount := some stake_amount,
           estimatedAnnualReturn := some estimated_return,
           portfolioValueUsd := some portfolio_value_usd }]
  else []

/-- The knowledge-advice block (lines 737-746): each surviving string of the
knowledge recommendations becomes one medium-priority record. -/
def knowledgeRecsOf (knowledge_recs : List String) : List Recommendation :=
  (knowledge_recs.filter (fun rec =>
      !(rec.startsWith "ASI API key") && !(rec.startsWith "Failed"))).map
    (fun rec =>
      { rtype := "knowledge_advice", priority := "medium",
        action := "Follow Knowledge guidance", description := rec,
        reasoning := "AI-powered recommendation from knowledge base analysis" })

/-- The diversification block (lines 748-757). -/
def divRecsOf (token_count : ℕ) : List Recommendation :=
  if token_count < 3 then
    [{ rtype := "diversification", priority := "medium",
       action := "Diversify portfolio",
       description := "Consider adding more tokens to diversify risk",
       reasoning := "Diversification reduces risk." }]
  else []

/-- `generate_recommendations`: short-circuit to a single error record when
the balance fetch failed, otherwise the three blocks in emission order. -/
def generateRecommendations (wallet_data : Except String WalletData)
    (zerion_data : Except String ZerionData) (knowledge_recs : List String)
    (staking_ops : List StakingOp) (market_data : MarketData) :
    List Recommendation :=
  match wallet_data with
  | .error e => [{ rtype := "error", message := some e }]
  | .ok wd =>
    let sol_balance := wd.sol_balance
    let sol_price := market_data.sol_price_usd
    let portfolio_value_usd := resolvePortfolioValueUsd zerion_data sol_balance sol_price
    let token_count := wd.token_accounts.length
    stakingRecOf sol_balance portfolio_value_usd staking_ops
      ++ knowledgeRecsOf knowledge_recs
      ++ divRecsOf token_count

/-! ### JSON values and the Zerion positions parser
(src/agent.py, `get_zerion_positions`, lines 393-502)

`Json` models the Python values a parsed JSON response can contain.  The
parser runs in `Except Unit`: `.error ()` models a raised exception, which
the outer `except` handler of `get_zerion_positions` turns into the empty
list.  `strToFloat` models Python `float(s)` on strings (`none` = the
`ValueError` branch of the surrounding `try`). -/

inductive Json where
  | null
  | bool (b : Bool)
  | num (q : ℚ)
  | str (s : String)
  | arr (items : List Json)
  | obj (fields : List (String × Json))

/-- Python truthiness of a JSON value. -/
def Json.truthy : Json → Bool
  | .null => false
  | .bool b => b
  | .num q => q != 0
  | .str s => s != ""
  | .arr items => !items.isEmpty
  | .obj fields => !fields.isEmpty

/-- Python `j.get(key, default)`: raises `AttributeError` when the receiver
is not a dict. -/
def pyGet (j : Json) (key : String) (default : Json) : Except Unit Json :=
  match j with
  | .obj fields => .ok ((fields.lookup key).getD default)
  | _ => .error ()

/-- Python `for x in j`: lists iterate their elements, strings iterate their
characters (as 1-character strings), dicts iterate their keys; other values
raise `TypeError`. -/
def jsonIterate : Json → Except Unit (List Json)
  | .arr items => .ok items
  | .str s => .ok (s.data.map fun c => Json.str (String.mk [c]))
  | .obj fields => .ok (fields.map fun kv => Json.str kv.1)
  | _ => .error ()

/-- The `for impl in implementations` loop (lines 432-435): the first dict
entry whose "chain_id" equals "solana" contributes its "address" value. -/
def findSolanaAddress : List Json → Json
  | [] => .null
  | impl :: rest =>
    match impl with
    | .obj fields =>
      match (fields.lookup "chain_id").getD .null with
      | .str s =>
        if s = "solana" then (fields.lookup "address").getD .null
        else findSolanaAddress rest
      | _ => findSolanaAddress rest
    | _ => findSolanaAddress rest

/-- One `position_data` dict (lines 479-489); every field keeps the raw
(possibly non-numeric) JSON value the source stores. -/
structure Position where
  name : Json
  symbol : Json
  address : Json
  quantity : Json
  value_usd : Json
  price_usd : Json
  changes_1d_usd : Json
  changes_1d_percent : Json
  verified : Json

/-- Python `isinstance(v, (int, float))` (recall `bool` is an `int`). -/
def Json.isNumLike : Json → Bool
  | .num _ => true
  | .bool _ => true
  | _ => false

/-- The per-item body of the parsing loop (lines 414-489), up to but not
including the final quantity guard: `ok none` models `continue`, `error`
models a raised exception. -/
def buildPosition (strToFloat : String → Option ℚ) (item : Json) :
    Except Unit (Option Position) :=
  match item with
  | .obj _ => do
    let attributes ← pyGet item "attributes" (.obj [])
    if !attributes.truthy then pure none else do
    let fungible_info ← pyGet attributes "fungible_info" (.obj [])
    let quantity ← pyGet attributes "quantity" (.obj [])
    if !fungible_info.truthy || !quantity.truthy then pure none else do
    let implementations ← pyGet fungible_info "implementations" (.arr [])
    let implList ← jsonIterate implementations
    let solana_address := findSolanaAddress implList
    let quantity_float : Json :=
      match quantity with
      | .obj qf =>
        match (qf.lookup "float").getD ((qf.lookup "numeric").getD (.num 0)) with
        | .str s => .num ((strToFloat s).getD 0)
        | other => other
      | .num q => .num q
      | .bool b => .num (if b then 1 else 0)
      | _ => .num 0
    let value_usd0 ← pyGet attributes "value" .null
    let value_usd : Json :=
      match value_usd0 with
      | .str s =>
        match strToFloat s with
        | some q => .num q
        | none => .null
      | v => v
    let price_usd0 ← pyGet attributes "price" (.num 0)
    let price_usd : Json :=
      match price_usd0 with
      | .str s => .num ((strToFloat s).getD 0)
      | v => v
    let changes ← pyGet attributes "changes" (.obj [])
    let changes_1d_usd : Json :=
      match changes with
      | .obj cf => (cf.lookup "absolute_1d").getD (.num 0)
      | _ => .num 0
    let changes_1d_percent : Json :=
      match changes with
      | .obj cf => (cf.lookup "percent_1d").getD (.num 0)
      | _ => .num 0
    let flags ← pyGet fungible_info "flags" (.obj [])
    let verified : Json :=
      match flags with
      | .obj ff => (ff.lookup "verified").getD (.bool false)
      | _ => .bool false
    let name ← pyGet fungible_info "name" (.str "Unknown")
    let symbol ← pyGet fungible_info "symbol" (.str "UNK")
    let idv ← pyGet item "id" .null
    let address ←
      if idv.truthy then
        if solana_address.truthy then pure solana_address
        else
          match idv with
          | Json.str s => pure (Json.str ((s.splitOn "-").headD ""))
          | _ => Except.error ()
      else pure (Json.str "")
    pure (some {
      name := name, symbol := symbol, address := address,
      quantity := quantity_float, value_usd := value_usd,
      price_usd := if price_usd.truthy then price_usd else .num 0,
      changes_1d_usd := if changes_1d_usd.isNumLike then changes_1d_usd else .num 0,
      changes_1d_percent :=
        if changes_1d_percent.isNumLike then changes_1d_percent else .num 0,
      verified := verified })
  | _ => pure none

/-- Python `position_data["quantity"] > 0` (line 492): numbers and booleans
compare against 0, anything else raises `TypeError`. -/
def guardQuantity (pos : Position) : Except Unit (Option Position) :=
  match pos.quantity with
  | .num q => .ok (if 0 < q then some pos else none)
  | .bool b => .ok (if b then some pos else none)
  | _ => .error ()

def parseItem (strToFloat : String → Option ℚ) (item : Json) :
    Except Unit (Option Position) := do
  match ← buildPosition strToFloat item with
  | some pos => guardQuantity pos
  | none => pure none

def positionsLoop (strToFloat : String → Option ℚ) :
    List Json → Except Unit (List Position)
  | [] => .ok []
  | item :: rest => do
    let r ← parseItem strToFloat item
    let tail ← positionsLoop strToFloat rest
    match r with
    | some p => .ok (p :: tail)
    | none => .ok tail

def getZerionPositionsExc (strToFloat : String → Option ℚ) (data : Json) :
    Except Unit (List Position) := do
  let data_list ← pyGet data "data" (.arr [])
  match data_list with
  | .arr items => positionsLoop strToFloat items
  | _ => pure []

/-- `get_zerion_positions` on a 200 response body `data`: any exception in
the parsing loop is caught by the outer handler, which returns `[]`. -/
def getZerionPositions (strToFloat : String → Option ℚ) (data : Json) :
    List Position :=
  match getZerionPositionsExc strToFloat data with
  | .ok positions => positions
  | .error _ => []

/-- The numeric value of a JSON number or boolean (Python treats booleans as
the integers 0 and 1 in comparisons). -/
def jsonAsNum : Json → Option ℚ
  | .num q => some q
  | .bool b => some (if b then 1 else 0)
  | _ => none

/-- A concrete well-formed positions response with one SOL position of
quantity 5. -/
def sampleZerionResponse : Json :=
  .obj [("data", .arr [
    .obj [
      ("attributes", .obj [
        ("fungible_info", .obj [
          ("name", .str "Solana"),
          ("symbol", .str "SOL"),
          ("implementations", .arr [
            .obj [("chain_id", .str "solana"), ("address", .str "So1111")]])]),
        ("quantity", .obj [("float", .num 5)]),
        ("value", .num 500),
        ("price", .num 100)]),
      ("id", .str "sol-asset")]])]

/-- The position that parsing `sampleZerionResponse` produces. -/
def sampleZerionPosition : Position :=
  ⟨.str "Solana", .str "SOL", .str "So1111", .num 5, .num 500, .num 100,
   .num 0, .num 0, .bool false⟩

/-! ### Address validator (src/agent.py, `on_chat`, line 961) -/

/-- The alphabet of the Python membership test
`all(c in "123...xyz" for c in wallet_address)`. -/
def BASE58_ALPHABET : String :=
  "123456789ABCDEFGHJKLMNPQRSTUVWXYZabcdefghijkmnopqrstuvwxyz"

def isBase58Char (c : Char) : Bool := BASE58_ALPHABET.data.contains c

/-- Line 961: `32 <= len <= 44` and every character in the base58 alphabet. -/
def isValidSolanaAddress (s : String) : Bool :=
  decide (32 ≤ s.length) && decide (s.length ≤ 44) && s.data.all isBase58Char

/-- The claim-side description of the base58 alphabet: digits 1-9 and
upper/lowercase letters excluding 0, O, I, l (to be proved equivalent to the
membership test of the source). -/
abbrev claimedBase58Char (c : Char) : Prop :=
  (c.isDigit = true ∧ c ≠ '0') ∨ (c.isUpper = true ∧ c ≠ 'O' ∧ c ≠ 'I') ∨
    (c.isLower = true ∧ c ≠ 'l')

/-! ### Helper lemmas -/

theorem mem_stakingRecOf_rtype (b v : ℚ) (ops : List StakingOp)
    (r : Recommendation) (hr : r ∈ stakingRecOf b v ops) : r.rtype = "staking" := by
  unfold stakingRecOf at hr
  by_cases hb : b > 0.1
  · rw [if_pos hb] at hr
    match ops with
    | [] => simp at hr
    | hd :: tl =>
      dsimp only at hr
      by_cases he : ((hd :: tl).any fun op => op.hasError) = true
      · rw [if_pos he] at hr; simp at hr
      · rw [if_neg he] at hr
        rw [List.mem_singleton] at hr
        rw [hr]
  · rw [if_neg hb] at hr; simp at hr

theorem mem_knowledgeRecsOf_rtype (kn : List String) (r : Recommendation)
    (hr : r ∈ knowledgeRecsOf kn) : r.rtype = "knowledge_advice" := by
  unfold knowledgeRecsOf at hr
  obtain ⟨s, _, rfl⟩ := List.mem_map.1 hr
  rfl

theorem mem_divRecsOf_rtype (n : ℕ) (r : Recommendation)
    (hr : r ∈ divRecsOf n) : r.rtype = "diversification" := by
  unfold divRecsOf at hr
  split at hr
  · simp only [List.mem_singleton] at hr; subst hr; rfl
  · simp at hr

theorem divRecsOf_eq_nil (n : ℕ) (h : ¬ n < 3) : divRecsOf n = [] := by
  unfold divRecsOf
  simp [h]

theorem divRecsOf_ne_nil (n : ℕ) (h : n < 3) : divRecsOf n ≠ [] := by
  unfold divRecsOf
  simp [h]

theorem knowledgeRecsOf_length_le (kn : List String) :
    (knowledgeRecsOf kn).length ≤ kn.length := by
  unfold knowledgeRecsOf
  simpa using List.length_filter_le _ kn

theorem getKnowledgeRecommendations_length_le (insights : List String)
    (krecs : List KnowledgeRec) (sb : ℚ) (tc : ℕ) :
    (getKnowledgeRecommendations insights krecs sb tc).length ≤ 5 := by
  unfold getKnowledgeRecommendations
  exact List.length_take_le _ _

theorem generateRecommendations_ok (wd : WalletData) (z : Except String ZerionData)
    (kn : List String) (ops : List StakingOp) (md : MarketData) :
    generateRecommendations (.ok wd) z kn ops md =
      stakingRecOf wd.sol_balance
          (resolvePortfolioValueUsd z wd.sol_balance md.sol_price_usd) ops
        ++ knowledgeRecsOf kn
        ++ divRecsOf wd.token_accounts.length := rfl

theorem stakingRecOf_length_le (b v : ℚ) (ops : List StakingOp) :
    (stakingRecOf b v ops).length ≤ 1 := by
  unfold stakingRecOf
  by_cases hb : b > 0.1
  · rw [if_pos hb]
    match ops with
    | [] => simp
    | hd :: tl =>
      dsimp only
      split <;> simp
  · rw [if_neg hb]; simp

theorem divRecsOf_length_le (n : ℕ) : (divRecsOf n).length ≤ 1 := by
  unfold divRecsOf
  split <;> simp

theorem stakingRecOf_nil_of_not_gt (b v : ℚ) (ops : List StakingOp)
    (hb : ¬ b > 0.1) : stakingRecOf b v ops = [] := by
  unfold stakingRecOf
  rw [if_neg hb]

theorem foldl_maxByApy_apyVal (xs : List StakingOp) : ∀ acc : StakingOp,
    (xs.foldl (fun acc x => if acc.apyVal < x.apyVal then x else acc) acc).apyVal =
      xs.foldl (fun m op => max m op.apyVal) acc.apyVal := by
  induction xs with
  | nil => intro acc; rfl
  | cons x xs ih =>
    intro acc
    simp only [List.foldl_cons]
    rw [ih]
    have hsel : (if acc.apyVal < x.apyVal then x else acc).apyVal =
        max acc.apyVal x.apyVal := by
      by_cases hlt : acc.apyVal < x.apyVal
      · rw [if_pos hlt, max_eq_right (le_of_lt hlt)]
      · rw [if_neg hlt, max_eq_left (not_lt.1 hlt)]
    rw [hsel]

/-- The first element reaching the maximal `get("apy", 0)` key, as picked by
Python `max`, carries the maximum APY of the whole list. -/
theorem maxByApy_apyVal (hd : StakingOp) (tl : List StakingOp) :
    (maxByApy hd tl).apyVal = maxApyOf (hd :: tl) := by
  unfold maxByApy maxApyOf
  exact foldl_maxByApy_apyVal tl hd

/-- Closed form of the staking block when the balance threshold is met and
the staking-opportunity list is usable. -/
theorem stakingRecOf_eq (b v : ℚ) (hd : StakingOp) (tl : List StakingOp)
    (hb : b > 0.1) (herr : ((hd :: tl).any fun op => op.hasError) = false) :
    stakingRecOf b v (hd :: tl) =
      [{ rtype := "staking",
         priority := if b < 1 then "medium" else "high",
         action := "Stake SOL",
         description := "Stake with the best validator",
         reasoning := "Optimal staking strategy for your portfolio size",
         stakeAmount :=
           some (if b < 1 then b * 0.5 else if b < 5 then b * 0.7 else b * 0.6),
         estimatedAnnualReturn :=
           some ((if b < 1 then b * 0.5 else if b < 5 then b * 0.7 else b * 0.6) *
             maxApyOf (hd :: tl) / 100),
         portfolioValueUsd := some v }] := by
  unfold stakingRecOf
  rw [if_pos hb]
  dsimp only
  rw [if_neg (by rw [herr]; exact Bool.false_ne_true)]
  by_cases h1 : b < 1
  · simp only [if_pos h1, maxByApy_apyVal]
  · by_cases h5 : b < 5
    · simp only [if_neg h1, if_pos h5, maxByApy_apyVal]
    · simp only [if_neg h1, if_neg h5, maxByApy_apyVal]

/-! ### C4: emission order and caps -/

/-- C4: for a successful analysis the recommendation list is exactly the
staking block, then the knowledge-advice block, then the diversification
block, in insertion order (no re-sorting); only the knowledge-sourced
sub-list is capped (at 5 entries, inside `get_knowledge_recommendations`,
before concatenation), while the staking and diversification blocks are
single uncapped additions. -/
theorem recommendation_order_and_caps (wd : WalletData)
    (z : Except String ZerionData) (insights : List String)
    (krecs : List KnowledgeRec) (sb : ℚ) (tc : ℕ)
    (ops : List StakingOp) (md : MarketData) :
    generateRecommendations (.ok wd) z
        (getKnowledgeRecommendations insights krecs sb tc) ops md =
      stakingRecOf wd.sol_balance
          (resolvePortfolioValueUsd z wd.sol_balance md.sol_price_usd) ops
        ++ knowledgeRecsOf (getKnowledgeRecommendations insights krecs sb tc)
        ++ divRecsOf wd.token_accounts.length ∧
    (∀ r ∈ stakingRecOf wd.sol_balance
        (resolvePortfolioValueUsd z wd.sol_balance md.sol_price_usd) ops,
      r.rtype = "staking") ∧
    (stakingRecOf wd.sol_balance
        (resolvePortfolioValueUsd z wd.sol_balance md.sol_price_usd) ops).length ≤ 1 ∧
    (∀ r ∈ knowledgeRecsOf (getKnowledgeRecommendations insights krecs sb tc),
      r.rtype = "knowledge_advice") ∧
    (knowledgeRecsOf (getKnowledgeRecommendations insights krecs sb tc)).length ≤ 5 ∧
    (∀ r ∈ divRecsOf wd.token_accounts.length, r.rtype = "diversification") ∧
    (divRecsOf wd.token_accounts.length).length ≤ 1 := by
  refine ⟨rfl, fun r hr => mem_stakingRecOf_rtype _ _ _ _ hr,
    stakingRecOf_length_le _ _ _,
    fun r hr => mem_knowledgeRecsOf_rtype _ _ hr,
    le_trans (knowledgeRecsOf_length_le _)
      (getKnowledgeRecommendations_length_le _ _ _ _),
    fun r hr => mem_divRecsOf_rtype _ _ hr,
    divRecsOf_length_le _⟩

/-! ### C1: the staking recommendation -/

/-- C1: for every wallet whose balance fetch succeeds (and with a non-empty,
error-free staking-opportunity list, which is what `get_staking_opportunities`
produces on its static-fallback paths), the recommendation list contains a
staking-type recommendation iff `sol_balance > 0.1`; when present its stake
amount is `sol_balance * 0.5` for balance in (0.1, 1), `* 0.7` for [1, 5),
`* 0.6` for [5, ∞), its estimated annual return is
`stakeAmount * bestApy / 100` with `bestApy` the maximum APY over the list,
and its priority is "medium" for the smallest tier and "high" otherwise. -/
theorem staking_recommendation_tiering (wd : WalletData)
    (z : Except String ZerionData) (kn : List String)
    (ops : List StakingOp) (md : MarketData)
    (hne : ops ≠ []) (herr : ∀ op ∈ ops, op.hasError = false) :
    ((∃ r ∈ generateRecommendations (.ok wd) z kn ops md, r.rtype = "staking") ↔
        wd.sol_balance > 0.1) ∧
    (∀ r ∈ generateRecommendations (.ok wd) z kn ops md, r.rtype = "staking" →
      ((wd.sol_balance < 1 →
          r.stakeAmount = some (wd.sol_balance * 0.5) ∧ r.priority = "medium") ∧
       (1 ≤ wd.sol_balance → wd.sol_balance < 5 →
          r.stakeAmount = some (wd.sol_balance * 0.7) ∧ r.priority = "high") ∧
       (5 ≤ wd.sol_balance →
          r.stakeAmount = some (wd.sol_balance * 0.6) ∧ r.priority = "high") ∧
       (∃ sa, r.stakeAmount = some sa ∧
          r.estimatedAnnualReturn = some (sa * maxApyOf ops / 100)))) := by
  have hka : ("knowledge_advice" : String) ≠ "staking" := by decide
  have hdv : ("diversification" : String) ≠ "staking" := by decide
  match ops, hne with
  | hd :: tl, _ =>
  have herr2 : ((hd :: tl).any fun op => op.hasError) = false := by
    rw [List.any_eq_false]
    intro op hop
    rw [herr op hop]
    exact Bool.false_ne_true
  rw [generateRecommendations_ok]
  by_cases hb : wd.sol_balance > 0.1
  · rw [stakingRecOf_eq _ _ hd tl hb herr2]
    constructor
    · constructor
      · intro _; exact hb
      · intro _
        exact ⟨_, List.mem_append.2 (Or.inl (List.mem_append.2 (Or.inl
          (List.mem_singleton.2 rfl)))), rfl⟩
    · intro r hr hty
      rcases List.mem_append.1 hr with hr' | hr'
      · rcases List.mem_append.1 hr' with hr'' | hr''
        · rw [List.mem_singleton] at hr''
          subst hr''
          refine ⟨?_, ?_, ?_, ?_⟩
          · intro h1
            constructor
            · simp only [if_pos h1]
            · simp only [if_pos h1]
          · intro h1 h5
            have h1' : ¬ wd.sol_balance < 1 := not_lt.2 h1
            constructor
            · simp only [if_neg h1', if_pos h5]
            · simp only [if_neg h1']
          · intro h5
            have h1' : ¬ wd.sol_balance < 1 := not_lt.2 (le_trans (by norm_num) h5)
            have h5' : ¬ wd.sol_balance < 5 := not_lt.2 h5
            constructor
            · simp only [if_neg h1', if_neg h5']
            · simp only [if_neg h1']
          · exact ⟨_, rfl, rfl⟩
        · exact absurd hty ((mem_knowledgeRecsOf_rtype _ _ hr'') ▸ hka)
      · exact absurd hty ((mem_divRecsOf_rtype _ _ hr') ▸ hdv)
  · rw [stakingRecOf_nil_of_not_gt _ _ _ hb]
    constructor
    · constructor
      · rintro ⟨r, hr, hty⟩
        rcases List.mem_append.1 hr with hr' | hr'
        · rcases List.mem_append.1 hr' with hr'' | hr''
          · simp at hr''
          · exact absurd hty ((mem_knowledgeRecsOf_rtype _ _ hr'') ▸ hka)
        · exact absurd hty ((mem_divRecsOf_rtype _ _ hr') ▸ hdv)
      · intro hb'
        exact absurd hb' hb
    · intro r hr hty
      exfalso
      rcases List.mem_append.1 hr with hr' | hr'
      · rcases List.mem_append.1 hr' with hr'' | hr''
        · simp at hr''
        · exact absurd hty ((mem_knowledgeRecsOf_rtype _ _ hr'') ▸ hka)
      · exact absurd hty ((mem_divRecsOf_rtype _ _ hr') ▸ hdv)

/-- Witness for C1 at a concrete input: balance 2 SOL with the static
fallback staking list produces a staking-type recommendation. -/
theorem staking_recommendation_tiering_witness :
    ∃ r ∈ generateRecommendations (.ok ⟨2, ["acc1"], "rpc"⟩)
        (.error "Zerion API error: 429") [] defaultStakingOps
        ⟨100, 3, "bullish"⟩, r.rtype = "staking" :=
  (staking_recommendation_tiering ⟨2, ["acc1"], "rpc"⟩
      (.error "Zerion API error: 429") [] defaultStakingOps
      ⟨100, 3, "bullish"⟩ (by decide) (by decide)).1.mpr (by norm_num)

/-! ### C5: diversification recommendation presence -/

/-- C5: for every wallet whose balance fetch succeeds, the recommendation
list contains a diversification-type recommendation iff the held-token count
is strictly less than 3, independent of the portfolio value (the statement
quantifies over every Zerion outcome and every market-data value). -/
theorem diversification_iff_token_count_lt_three (wd : WalletData)
    (z : Except String ZerionData) (kn : List String)
    (ops : List StakingOp) (md : MarketData) :
    (∃ r ∈ generateRecommendations (.ok wd) z kn ops md,
        r.rtype = "diversification") ↔ wd.token_accounts.length < 3 := by
  unfold generateRecommendations
  constructor
  · rintro ⟨r, hr, hty⟩
    simp only [List.mem_append] at hr
    rcases hr with (hr | hr) | hr
    · rw [mem_stakingRecOf_rtype _ _ _ _ hr] at hty
      exact absurd hty (by decide)
    · rw [mem_knowledgeRecsOf_rtype _ _ hr] at hty
      exact absurd hty (by decide)
    · by_contra hlt
      rw [divRecsOf_eq_nil _ hlt] at hr
      simp at hr
  · intro h
    have hd : divRecsOf wd.token_accounts.length ≠ [] := divRecsOf_ne_nil _ h
    obtain ⟨r, hr⟩ := List.exists_mem_of_ne_nil _ hd
    exact ⟨r, List.mem_append.2 (Or.inr hr), mem_divRecsOf_rtype _ _ hr⟩

/-! ### C3: resolution of the portfolio USD value -/

theorem mem_stakingRecOf_portfolioValue (b v : ℚ) (ops : List StakingOp)
    (r : Recommendation) (hr : r ∈ stakingRecOf b v ops) :
    r.portfolioValueUsd = some v := by
  unfold stakingRecOf at hr
  by_cases hb : b > 0.1
  · rw [if_pos hb] at hr
    match ops with
    | [] => simp at hr
    | hd :: tl =>
      dsimp only at hr
      by_cases he : ((hd :: tl).any fun op => op.hasError) = true
      · rw [if_pos he] at hr; simp at hr
      · rw [if_neg he] at hr
        rw [List.mem_singleton] at hr
        rw [hr]
  · rw [if_neg hb] at hr; simp at hr

/-- A staking-typed member of the output of a successful analysis comes from
the staking block (the other two blocks carry different type tags). -/
theorem staking_mem_of_rtype (wd : WalletData) (z : Except String ZerionData)
    (kn : List String) (ops : List StakingOp) (md : MarketData)
    (r : Recommendation) (hr : r ∈ generateRecommendations (.ok wd) z kn ops md)
    (hty : r.rtype = "staking") :
    r ∈ stakingRecOf wd.sol_balance
      (resolvePortfolioValueUsd z wd.sol_balance md.sol_price_usd) ops := by
  have hka : ("knowledge_advice" : String) ≠ "staking" := by decide
  have hdv : ("diversification" : String) ≠ "staking" := by decide
  rw [generateRecommendations_ok] at hr
  rcases List.mem_append.1 hr with hr' | hr'
  · rcases List.mem_append.1 hr' with hr'' | hr''
    · exact hr''
    · exact absurd hty ((mem_knowledgeRecsOf_rtype _ _ hr'') ▸ hka)
  · exact absurd hty ((mem_divRecsOf_rtype _ _ hr') ▸ hdv)

/-- C3 counterexample: the claim that the single resolved `portfolioValueUsd`
(analytics total when error-free, else `nativeBalance * nativePriceUsd`)
drives every downstream bucket decision fails at a concrete input.  With the
valuation fetch failed, `nativeBalance = 20` and `nativePriceUsd = 100`, the
engine resolves 2000, but `KnowledgeProcessor.analyze_portfolio` resolves 0,
and the two values select different staking-strategy buckets. -/
theorem portfolio_value_resolution_counterexample :
    analyzePortfolioValue (.error "Zerion API error: 500") ≠
      resolvePortfolioValueUsd (.error "Zerion API error: 500") 20 100 ∧
    analyzePortfolioStakingInsight (.error "Zerion API error: 500") ≠
      getStakingRecommendation
        (resolvePortfolioValueUsd (.error "Zerion API error: 500") 20 100) := by
  constructor
  · norm_num [analyzePortfolioValue, resolvePortfolioValueUsd]
  · have h1 : analyzePortfolioStakingInsight (.error "Zerion API error: 500") =
        stakingStrategySmall := by
      unfold analyzePortfolioStakingInsight
      norm_num [analyzePortfolioValue, getStakingRecommendation]
    have h2 : getStakingRecommendation
        (resolvePortfolioValueUsd (.error "Zerion API error: 500") 20 100) =
        stakingStrategyMedium := by
      norm_num [resolvePortfolioValueUsd, getStakingRecommendation]
    rw [h1, h2]
    decide

/-- C3 (amended): `generate_recommendations` resolves `portfolioValueUsd`
once — the analytics total when the valuation fetch succeeded without error,
else `nativeBalance * nativePriceUsd` — and that value is the one carried by
the staking recommendation it emits; the knowledge-processor branch, however,
resolves its own portfolio value as the analytics total when error-free and
as 0 (not `nativeBalance * nativePriceUsd`) otherwise.  The concrete example
stands: `nativeBalance = 2.0` with the valuation API unavailable and
`nativePriceUsd = 100` resolves `portfolioValueUsd = 200` with staking
amount 1.4 (see the witness). -/
theorem portfolio_value_resolution_amended (wd : WalletData)
    (z : Except String ZerionData) (kn : List String)
    (ops : List StakingOp) (md : MarketData) :
    (∀ r ∈ generateRecommendations (.ok wd) z kn ops md, r.rtype = "staking" →
        r.portfolioValueUsd =
          some (resolvePortfolioValueUsd z wd.sol_balance md.sol_price_usd)) ∧
    (∀ zd : ZerionData,
        resolvePortfolioValueUsd (.ok zd) wd.sol_balance md.sol_price_usd =
          zd.total_value_usd) ∧
    (∀ e : String,
        resolvePortfolioValueUsd (.error e) wd.sol_balance md.sol_price_usd =
          wd.sol_balance * md.sol_price_usd) ∧
    (∀ e : String, analyzePortfolioValue (.error e) = 0) := by
  refine ⟨?_, fun _ => rfl, fun _ => rfl, fun _ => rfl⟩
  intro r hr hty
  exact mem_stakingRecOf_portfolioValue _ _ _ _
    (staking_mem_of_rtype wd z kn ops md r hr hty)

/-- Witness for the amended C3 at the concrete example of the claim: balance
2 SOL, failed valuation fetch, price 100 USD; the emitted staking
recommendation carries resolved portfolio value 200 and stake amount 1.4. -/
theorem portfolio_value_resolution_amended_witness :
    (⟨"staking", "high", "Stake SOL", "Stake with the best validator",
      "Optimal staking strategy for your portfolio size", some 1.4,
      some (1.4 * 7.2 / 100), some 200, none⟩ : Recommendation) ∈
        generateRecommendations (.ok ⟨2, [], "rpc"⟩) (.error "e") []
          defaultStakingOps ⟨100, 0, "neutral"⟩ ∧
    (⟨"staking", "high", "Stake SOL", "Stake with the best validator",
      "Optimal staking strategy for your portfolio size", some 1.4,
      some (1.4 * 7.2 / 100), some 200, none⟩ : Recommendation).portfolioValueUsd =
      some (resolvePortfolioValueUsd (.error "e") 2 100) := by
  have hb : (2 : ℚ) > 0.1 := by norm_num
  have herr : ((StakingOp.validator "Solana Foundation" 7.2 0 ::
      [StakingOp.validator "Marinade Finance" 6.8 2]).any
        fun op => op.hasError) = false := by decide
  have hsr := stakingRecOf_eq 2 (resolvePortfolioValueUsd (.error "e") 2 100)
    (StakingOp.validator "Solana Foundation" 7.2 0)
    [StakingOp.validator "Marinade Finance" 6.8 2] hb herr
  have h1 : ¬ (2 : ℚ) < 1 := by norm_num
  have h5 : (2 : ℚ) < 5 := by norm_num
  rw [if_neg h1, if_pos h5, if_neg h1] at hsr
  have hmax : maxApyOf (StakingOp.validator "Solana Foundation" 7.2 0 ::
      [StakingOp.validator "Marinade Finance" 6.8 2]) = 7.2 := by
    unfold maxApyOf
    simp only [List.foldl_cons, List.foldl_nil, StakingOp.apyVal]
    rw [max_eq_left (by norm_num : (6.8 : ℚ) ≤ 7.2)]
  rw [hmax] at hsr
  have hmem : (⟨"staking", "high", "Stake SOL", "Stake with the best validator",
      "Optimal staking strategy for your portfolio size", some 1.4,
      some (1.4 * 7.2 / 100), some 200, none⟩ : Recommendation) ∈
        generateRecommendations (.ok ⟨2, [], "rpc"⟩) (.error "e") []
          defaultStakingOps ⟨100, 0, "neutral"⟩ := by
    show _ ∈ stakingRecOf 2 (resolvePortfolioValueUsd (.error "e") 2 100)
        (StakingOp.validator "Solana Foundation" 7.2 0 ::
          [StakingOp.validator "Marinade Finance" 6.8 2])
      ++ knowledgeRecsOf [] ++ divRecsOf 0
    refine List.mem_append.2 (Or.inl (List.mem_append.2 (Or.inl ?_)))
    rw [hsr]
    refine List.mem_singleton.2 ?_
    simp only [Recommendation.mk.injEq]
    norm_num [resolvePortfolioValueUsd]
  exact ⟨hmem, (portfolio_value_resolution_amended ⟨2, [], "rpc"⟩ (.error "e") []
    defaultStakingOps ⟨100, 0, "neutral"⟩).1 _ hmem rfl⟩

/-! ### C2: balance fetcher fail-fast-on-success and exhaustion -/

theorem fetchLoop_eq_none (eps : List (String × EndpointOutcome))
    (h : ∀ e ∈ eps, e.2.isOk = false) : fetchLoop eps = none := by
  induction eps with
  | nil => rfl
  | cons e rest ih =>
    obtain ⟨u, o⟩ := e
    match o with
    | .ok lam accts =>
      exact absurd (h (u, .ok lam accts) (List.mem_cons_self _ _)) (by simp [EndpointOutcome.isOk])
    | .balanceError => exact ih (fun e he => h e (List.mem_cons_of_mem _ he))
    | .tokenError => exact ih (fun e he => h e (List.mem_cons_of_mem _ he))

theorem fetchLoop_append_ok (pre : List (String × EndpointOutcome))
    (u : String) (lam : ℚ) (accts : List String)
    (post : List (String × EndpointOutcome))
    (h : ∀ e ∈ pre, e.2.isOk = false) :
    fetchLoop (pre ++ (u, .ok lam accts) :: post) =
      some ⟨lam / 1000000000, accts, u⟩ := by
  induction pre with
  | nil => rfl
  | cons e rest ih =>
    obtain ⟨v, o⟩ := e
    match o with
    | .ok l a =>
      exact absurd (h (v, .ok l a) (List.mem_cons_self _ _)) (by simp [EndpointOutcome.isOk])
    | .balanceError => exact ih (fun e he => h e (List.mem_cons_of_mem _ he))
    | .tokenError => exact ih (fun e he => h e (List.mem_cons_of_mem _ he))

theorem calledEndpoints_append_ok (pre : List (String × EndpointOutcome))
    (u : String) (lam : ℚ) (accts : List String)
    (post : List (String × EndpointOutcome))
    (h : ∀ e ∈ pre, e.2.isOk = false) :
    calledEndpoints (pre ++ (u, .ok lam accts) :: post) =
      pre.map Prod.fst ++ [u] := by
  induction pre with
  | nil => rfl
  | cons e rest ih =>
    obtain ⟨v, o⟩ := e
    match o with
    | .ok l a =>
      exact absurd (h (v, .ok l a) (List.mem_cons_self _ _)) (by simp [EndpointOutcome.isOk])
    | .balanceError =>
      have := ih (fun e he => h e (List.mem_cons_of_mem _ he))
      show v :: calledEndpoints (rest ++ (u, .ok lam accts) :: post) = _
      rw [this]
      rfl
    | .tokenError =>
      have := ih (fun e he => h e (List.mem_cons_of_mem _ he))
      show v :: calledEndpoints (rest ++ (u, .ok lam accts) :: post) = _
      rw [this]
      rfl

/-- C2: the balance fetcher returns the parsed result tagged with the first
endpoint where both calls succeed, and issues no request to endpoints after
that success; if every endpoint fails it tries the single explorer fallback;
if that also fails the fetch returns the all-sources-exhausted error, and on
that error the recommendation engine returns exactly the one error-typed
recommendation. -/
theorem balance_fetch_first_success_and_exhaustion :
    (∀ (pre post : List (String × EndpointOutcome)) (u : String) (lam : ℚ)
        (accts : List String) (fb : Option ℚ),
      (∀ e ∈ pre, e.2.isOk = false) →
      getWalletBalance (pre ++ (u, .ok lam accts) :: post) fb =
          .ok ⟨lam / 1000000000, accts, u⟩ ∧
        calledEndpoints (pre ++ (u, .ok lam accts) :: post) =
          pre.map Prod.fst ++ [u]) ∧
    (∀ (eps : List (String × EndpointOutcome)) (lam : ℚ),
      (∀ e ∈ eps, e.2.isOk = false) →
      getWalletBalance eps (some lam) = .ok ⟨lam / 1000000000, [], "solscan"⟩) ∧
    (∀ eps : List (String × EndpointOutcome),
      (∀ e ∈ eps, e.2.isOk = false) →
      getWalletBalance eps none =
        .error "All RPC endpoints and fallback APIs failed") ∧
    (∀ (s : String) (z : Except String ZerionData) (kn : List String)
        (ops : List StakingOp) (md : MarketData),
      generateRecommendations (.error s) z kn ops md =
        [{ rtype := "error", message := some s }]) := by
  refine ⟨?_, ?_, ?_, fun _ _ _ _ _ => rfl⟩
  · intro pre post u lam accts fb h
    constructor
    · unfold getWalletBalance
      rw [fetchLoop_append_ok pre u lam accts post h]
    · exact calledEndpoints_append_ok pre u lam accts post h
  · intro eps lam h
    unfold getWalletBalance
    rw [fetchLoop_eq_none eps h]
  · intro eps h
    unfold getWalletBalance
    rw [fetchLoop_eq_none eps h]

/-- Witness for C2 at concrete inputs: the second endpoint is the first full
success, the third is never called; a single-failure list with no fallback
yields the exhaustion error, which the engine maps to one error record. -/
theorem balance_fetch_first_success_and_exhaustion_witness :
    getWalletBalance
        ([("a", .balanceError)] ++ ("b", .ok 2000000000 ["t"]) :: [("c", .ok 5 [])])
        none = .ok ⟨2000000000 / 1000000000, ["t"], "b"⟩ ∧
    calledEndpoints
        ([("a", .balanceError)] ++ ("b", .ok 2000000000 ["t"]) :: [("c", .ok 5 [])]) =
      ["a", "b"] ∧
    getWalletBalance [("a", .tokenError)] none =
      .error "All RPC endpoints and fallback APIs failed" ∧
    generateRecommendations (.error "All RPC endpoints and fallback APIs failed")
        (.error "z") [] [] ⟨100, 0, "neutral"⟩ =
      [{ rtype := "error",
         message := some "All RPC endpoints and fallback APIs failed" }] := by
  have h := balance_fetch_first_success_and_exhaustion
  have h1 := h.1 [("a", .balanceError)] [("c", .ok 5 [])] "b" 2000000000 ["t"] none
    (by decide)
  exact ⟨h1.1, h1.2, h.2.2.1 [("a", .tokenError)] (by decide),
    h.2.2.2 "All RPC endpoints and fallback APIs failed" (.error "z") [] []
      ⟨100, 0, "neutral"⟩⟩

/-! ### C6: market trend classification on the success path -/

/-- C6: on a successful market-data fetch (both calls return and the change
computation does not divide by zero), the trend is "bullish" iff the 7-day
change is strictly positive and "bearish" otherwise, so change exactly 0
gives "bearish"; "neutral" arises only from the fetch-failure default. -/
theorem market_trend_success_classification :
    (∀ (p : ℚ) (prices : List ℚ),
      (2 ≤ prices.length → prices.head? ≠ some 0) →
      (((getMarketData (some (p, prices))).market_trend = "bullish" ↔
          0 < (getMarketData (some (p, prices))).price_change_7d) ∧
       ((getMarketData (some (p, prices))).market_trend = "bearish" ↔
          (getMarketData (some (p, prices))).price_change_7d ≤ 0) ∧
       (getMarketData (some (p, prices))).market_trend ≠ "neutral")) ∧
    (getMarketData none).market_trend = "neutral" := by
  have hbb : ("bearish" : String) ≠ "bullish" := by decide
  have hbn : ("bearish" : String) ≠ "neutral" := by decide
  have hub : ("bullish" : String) ≠ "bearish" := by decide
  have hun : ("bullish" : String) ≠ "neutral" := by decide
  refine ⟨?_, rfl⟩
  intro p prices h
  match prices with
  | [] =>
    have hmd : getMarketData (some (p, [])) = ⟨p, 0, "bearish"⟩ := by
      simp only [getMarketData]
      rw [if_neg (lt_irrefl (0 : ℚ))]
    rw [hmd]
    exact ⟨⟨fun hb => absurd hb hbb, fun h0 => absurd h0 (lt_irrefl 0)⟩,
      ⟨fun _ => le_refl 0, fun _ => rfl⟩, hbn⟩
  | [a] =>
    have hmd : getMarketData (some (p, [a])) = ⟨p, 0, "bearish"⟩ := by
      simp only [getMarketData]
      rw [if_neg (lt_irrefl (0 : ℚ))]
    rw [hmd]
    exact ⟨⟨fun hb => absurd hb hbb, fun h0 => absurd h0 (lt_irrefl 0)⟩,
      ⟨fun _ => le_refl 0, fun _ => rfl⟩, hbn⟩
  | a :: b :: rest =>
    have ha : a ≠ 0 := by
      intro h0
      exact (h (by simp)) (by simp [h0])
    have hmd : getMarketData (some (p, a :: b :: rest)) =
        ⟨p, (((b :: rest).getLast (List.cons_ne_nil b rest)) - a) / a * 100,
          if (((b :: rest).getLast (List.cons_ne_nil b rest)) - a) / a * 100 > 0
          then "bullish" else "bearish"⟩ := by
      simp only [getMarketData]
      rw [if_neg ha]
    rw [hmd]
    set chg := (((b :: rest).getLast (List.cons_ne_nil b rest)) - a) / a * 100 with hchg
    by_cases hpos : chg > 0
    · rw [if_pos hpos]
      exact ⟨⟨fun _ => hpos, fun _ => rfl⟩,
        ⟨fun hb => absurd hb hub, fun hle => absurd hpos (not_lt.2 hle)⟩,
        hun⟩
    · rw [if_neg hpos]
      exact ⟨⟨fun hb => absurd hb hbb, fun hc => absurd hc hpos⟩,
        ⟨fun _ => not_lt.1 hpos, fun _ => rfl⟩, hbn⟩

/-- Witness for C6 at a concrete successful fetch: series `[1, 2]`, change
`100`, trend "bullish". -/
theorem market_trend_success_classification_witness :
    ((getMarketData (some (100, [1, 2]))).market_trend = "bullish" ↔
        0 < (getMarketData (some (100, [1, 2]))).price_change_7d) ∧
    ((getMarketData (some (100, [1, 2]))).market_trend = "bearish" ↔
        (getMarketData (some (100, [1, 2]))).price_change_7d ≤ 0) ∧
    (getMarketData (some (100, [1, 2]))).market_trend ≠ "neutral" :=
  market_trend_success_classification.1 100 [1, 2] (by decide)

/-! ### C7: the market-strategy lookup never sees a matching key -/

/-- C7: every trend the market fetcher can produce is one of "bullish",
"bearish", "neutral", and the market-strategy lookup (keyed by
"bull_market"/"bear_market"/"sideways") sends each of them to the sideways
default, so the observed trend never changes the advisory text. -/
theorem market_strategy_ignores_produced_trend :
    ∀ fetch : Option (ℚ × List ℚ),
      ((getMarketData fetch).market_trend = "bullish" ∨
       (getMarketData fetch).market_trend = "bearish" ∨
       (getMarketData fetch).market_trend = "neutral") ∧
      getMarketStrategy (getMarketData fetch).market_trend =
        "DCA strategies, yield farming, balanced allocation" := by
  have key : ∀ t : String, t = "bullish" ∨ t = "bearish" ∨ t = "neutral" →
      getMarketStrategy t = "DCA strategies, yield farming, balanced allocation" := by
    rintro t (rfl | rfl | rfl) <;> rfl
  intro fetch
  have trichotomy : (getMarketData fetch).market_trend = "bullish" ∨
      (getMarketData fetch).market_trend = "bearish" ∨
      (getMarketData fetch).market_trend = "neutral" := by
    rcases fetch with _ | ⟨p, prices⟩
    · right; right; rfl
    · match prices with
      | [] =>
        right; left
        simp only [getMarketData]
        rw [if_neg (lt_irrefl (0 : ℚ))]
      | [a] =>
        right; left
        simp only [getMarketData]
        rw [if_neg (lt_irrefl (0 : ℚ))]
      | a :: b :: rest =>
        simp only [getMarketData]
        by_cases ha : a = 0
        · rw [if_pos ha]
          right; right; rfl
        · rw [if_neg ha]
          by_cases hpos :
              (((b :: rest).getLast (List.cons_ne_nil b rest)) - a) / a * 100 > 0
          · rw [if_pos hpos]; left; rfl
          · rw [if_neg hpos]; right; left; rfl
  exact ⟨trichotomy, key _ trichotomy⟩

/-! ### C8: market fetch totality, change formula, and fallback -/

/-- C8: the market-data fetch never fails outwardly.  On the failure path it
returns the fixed fallback (price 100, change 0, trend neutral); on the
success path the 7-day change is `(last - first) / first * 100` over the two
endpoints of the series, or 0 when the series has fewer than 2 points; a
zero first sample makes the division raise, which the same handler turns into
the fallback. -/
theorem market_data_total_with_fallback :
    getMarketData none = ⟨100, 0, "neutral"⟩ ∧
    (∀ (p old p2 : ℚ) (rest : List ℚ), old ≠ 0 →
       (getMarketData (some (p, old :: p2 :: rest))).price_change_7d =
         (((p2 :: rest).getLast (List.cons_ne_nil p2 rest)) - old) / old * 100) ∧
    (∀ (p : ℚ) (prices : List ℚ), prices.length < 2 →
       (getMarketData (some (p, prices))).price_change_7d = 0) ∧
    (∀ (p p2 : ℚ) (rest : List ℚ),
       getMarketData (some (p, (0 : ℚ) :: p2 :: rest)) = ⟨100, 0, "neutral"⟩) := by
  refine ⟨rfl, ?_, ?_, ?_⟩
  · intro p old p2 rest hold
    unfold getMarketData
    simp [hold]
  · intro p prices hlen
    match prices with
    | [] => rfl
    | [a] => rfl
    | a :: b :: rest =>
      simp only [List.length_cons] at hlen
      omega
  · intro p p2 rest
    unfold getMarketData
    simp

/-- Witness for C8 at concrete inputs: series `[2, 1, 3]` gives change `50`;
the one-point series gives change `0`; a zero first sample gives the
fallback. -/
theorem market_data_total_with_fallback_witness :
    (getMarketData (some (100, [2, 1, 3]))).price_change_7d =
      ((([1, 3] : List ℚ).getLast (List.cons_ne_nil 1 [3])) - 2) / 2 * 100 ∧
    (getMarketData (some (100, [7]))).price_change_7d = 0 ∧
    getMarketData (some (100, [0, 5])) = ⟨100, 0, "neutral"⟩ := by
  refine ⟨market_data_total_with_fallback.2.1 100 2 1 [3] (by norm_num),
    market_data_total_with_fallback.2.2.1 100 [7] (by decide),
    market_data_total_with_fallback.2.2.2 100 5 []⟩

/-! ### C9: parsed positions have strictly positive quantity -/

theorem guardQuantity_pos (pos p : Position)
    (h : guardQuantity pos = .ok (some p)) :
    p = pos ∧ ∃ q : ℚ, jsonAsNum p.quantity = some q ∧ 0 < q := by
  unfold guardQuantity at h
  split at h
  · next q heq =>
    by_cases hq : 0 < q
    · rw [if_pos hq] at h
      have hp : p = pos := by
        injection h with h'
        injection h' with h''
        exact h''.symm
      subst hp
      exact ⟨rfl, q, by rw [heq]; rfl, hq⟩
    · rw [if_neg hq] at h
      simp at h
  · next b heq =>
    by_cases hb : b = true
    · subst hb
      rw [if_pos rfl] at h
      have hp : p = pos := by
        injection h with h'
        injection h' with h''
        exact h''.symm
      subst hp
      refine ⟨rfl, 1, by rw [heq]; rfl, by norm_num⟩
    · rw [if_neg hb] at h
      simp at h
  · exact absurd h (by simp)

theorem parseItem_pos (f : String → Option ℚ) (item : Json) (p : Position)
    (h : parseItem f item = .ok (some p)) :
    ∃ q : ℚ, jsonAsNum p.quantity = some q ∧ 0 < q := by
  unfold parseItem at h
  cases hb : buildPosition f item with
  | error u => rw [hb] at h; simp [Bind.bind, Except.bind] at h
  | ok r =>
    rw [hb] at h
    simp only [Bind.bind, Except.bind] at h
    cases r with
    | none => simp [pure, Except.pure] at h
    | some pos => exact (guardQuantity_pos pos p h).2

theorem positionsLoop_pos (f : String → Option ℚ) (items : List Json)
    (l : List Position) (h : positionsLoop f items = .ok l) :
    ∀ p ∈ l, ∃ q : ℚ, jsonAsNum p.quantity = some q ∧ 0 < q := by
  induction items generalizing l with
  | nil =>
    unfold positionsLoop at h
    injection h with h'
    subst h'
    intro p hp
    simp at hp
  | cons item rest ih =>
    unfold positionsLoop at h
    cases hr : parseItem f item with
    | error u => rw [hr] at h; simp [Bind.bind, Except.bind] at h
    | ok r =>
      rw [hr] at h
      simp only [Bind.bind, Except.bind] at h
      cases ht : positionsLoop f rest with
      | error u => rw [ht] at h; simp at h
      | ok tail =>
        rw [ht] at h
        cases r with
        | some p' =>
          injection h with h'
          subst h'
          intro p hp
          rcases List.mem_cons.1 hp with rfl | hp'
          · exact parseItem_pos f item p hr
          · exact ih tail ht p hp'
        | none =>
          injection h with h'
          subst h'
          exact ih tail ht

/-- C9: for every possible upstream response shape (any JSON value, any
behaviour of string-to-float coercion), every entry of the parsed positions
list has a numeric quantity that is strictly positive — non-positive
positions are discarded by the final guard, and every malformed shape either
skips the entry or empties the whole result. -/
theorem zerion_positions_quantity_positive (f : String → Option ℚ)
    (data : Json) (p : Position) (hp : p ∈ getZerionPositions f data) :
    ∃ q : ℚ, jsonAsNum p.quantity = some q ∧ 0 < q := by
  unfold getZerionPositions at hp
  cases hx : getZerionPositionsExc f data with
  | error u => rw [hx] at hp; simp at hp
  | ok l =>
    rw [hx] at hp
    unfold getZerionPositionsExc at hx
    cases hd : pyGet data "data" (.arr []) with
    | error u => rw [hd] at hx; simp [Bind.bind, Except.bind] at hx
    | ok dl =>
      rw [hd] at hx
      simp only [Bind.bind, Except.bind] at hx
      cases dl with
      | arr items => exact positionsLoop_pos f items l hx p hp
      | null => injection hx with h'; subst h'; simp at hp
      | bool b => injection hx with h'; subst h'; simp at hp
      | num q => injection hx with h'; subst h'; simp at hp
      | str s => injection hx with h'; subst h'; simp at hp
      | obj fields => injection hx with h'; subst h'; simp at hp

/-- Witness for C9 at the concrete sample response: the parsed SOL position
is a member of the output and carries quantity 5 > 0. -/
theorem zerion_positions_quantity_positive_witness :
    sampleZerionPosition ∈ getZerionPositions (fun _ => none) sampleZerionResponse ∧
    ∃ q : ℚ, jsonAsNum sampleZerionPosition.quantity = some q ∧ 0 < q := by
  have hmem : sampleZerionPosition ∈
      getZerionPositions (fun _ => none) sampleZerionResponse := by
    rw [show getZerionPositions (fun _ => none) sampleZerionResponse =
        [sampleZerionPosition] from rfl]
    exact List.mem_singleton.2 rfl
  exact ⟨hmem, zerion_positions_quantity_positive _ _ _ hmem⟩

/-! ### C10: the address validator -/

theorem char_eq_ofNat_of_toNat (c : Char) (K : ℕ) (hg : c.val.toNat = K) :
    c = Char.ofNat K := by
  rw [← hg]
  exact (Char.ofNat_toNat c).symm

/-- The membership test against the base58 alphabet string accepts exactly
the digits 1-9 and the upper/lowercase letters excluding 0, O, I, l. -/
theorem isBase58Char_iff (c : Char) :
    isBase58Char c = true ↔ claimedBase58Char c := by
  constructor
  · intro h
    have hm : c ∈ BASE58_ALPHABET.data := by
      have h' : BASE58_ALPHABET.data.elem c = true := h
      exact List.elem_iff.1 h'
    fin_cases hm <;> decide
  · intro h
    have hub : c.val.toNat ≤ 122 := by
      rcases h with ⟨hd, _⟩ | ⟨hu, _, _⟩ | ⟨hl, _⟩
      · simp only [Char.isDigit, Bool.and_eq_true, decide_eq_true_eq] at hd
        have h2 : c.val.toNat ≤ 57 := hd.2
        omega
      · simp only [Char.isUpper, Bool.and_eq_true, decide_eq_true_eq] at hu
        have h2 : c.val.toNat ≤ 90 := hu.2
        omega
      · simp only [Char.isLower, Bool.and_eq_true, decide_eq_true_eq] at hl
        exact hl.2
    generalize hg : c.val.toNat = n at hub
    interval_cases n <;>
      (rw [char_eq_ofNat_of_toNat c _ hg] at h ⊢; revert h; decide)

/-- C10: the address validator accepts a string iff its length is in
[32, 44] and every character is in the base58 alphabet (digits 1-9 and
upper/lowercase letters excluding 0, O, I, l); the 44-character example
address is accepted, every 20-character string is rejected, and a
44-character string containing the character 0 is rejected. -/
theorem address_validator_rule :
    (∀ s : String, isValidSolanaAddress s = true ↔
      (32 ≤ s.length ∧ s.length ≤ 44 ∧ ∀ c ∈ s.data, claimedBase58Char c)) ∧
    isValidSolanaAddress "7pQHLgaTrP25TjmSaoGvTJJKeS2ZyGT2xAAvYLHsSXtk" = true ∧
    (∀ s : String, s.length = 20 → isValidSolanaAddress s = false) ∧
    isValidSolanaAddress "7pQHLgaTrP25TjmSaoGvTJJKeS2ZyGT2xAAvYLHsSXt0" = false := by
  refine ⟨?_, by decide, ?_, by decide⟩
  · intro s
    unfold isValidSolanaAddress
    simp only [Bool.and_eq_true, decide_eq_true_eq, List.all_eq_true]
    constructor
    · rintro ⟨⟨h1, h2⟩, h3⟩
      exact ⟨h1, h2, fun c hc => (isBase58Char_iff c).1 (h3 c hc)⟩
    · rintro ⟨h1, h2, h3⟩
      exact ⟨⟨h1, h2⟩, fun c hc => (isBase58Char_iff c).2 (h3 c hc)⟩
  · intro s h
    unfold isValidSolanaAddress
    rw [h]
    rfl

/-- Witness for C10: a concrete 20-character string is rejected. -/
theorem address_validator_rule_witness :
    isValidSolanaAddress "11111111111111111111" = false :=
  address_validator_rule.2.2.1 "11111111111111111111" (by decide)

end SolanaAgent
